import Mathlib

/-!
# Verification of the lakehouse profiling/matching engine

Shallow embedding of the core components of the repository:

* `src/backend/src/utils/cleaning.py` — `clean_column_name`
* `src/backend/src/semantic_field_mapping/normalize.py` — `normalize_name`, `tokenize`
* `src/src/semantic_filed_mapping/scorers.py` — `jaccard`, `base_name_scores`, `aggregate_score`
* `src/backend/src/semantic_field_mapping/patterns.py` — the regex pattern library
* `src/backend/src/schema_recognition/inference/semantic.py` — `SemanticTypeDetector`
* `src/backend/src/semantic_field_mapping/mapper.py` — `SemanticFieldMapper.map_columns`
* `src/backend/src/schema_recognition/inference/type_inference.py` — `refine_col_type`
* `src/backend/src/anomaly_detection/rules.py` — `z_score_anomalies`
* `src/backend/src/anomaly_detection/missing_values.py` — `detect_missing_value_anomalies`
* `src/backend/src/assistant/runner.py` — the dynamic reference-field computation of `run_assistant`

Python floats are modelled as rationals (`ℚ`); all inputs handled by the
claims are small exact values, where Python float arithmetic is exact or the
comparisons are insensitive to rounding.  Strings are modelled through their
character lists (`String.data`); the source data is ASCII.
-/

namespace Lakehouse

/-! ## Python string primitives used by the code -/

/-- Python `str.strip()` whitespace characters (ASCII subset relevant here). -/
def isPySpace (c : Char) : Bool :=
  c = ' ' || c = '\t' || c = '\n' || c = '\r' || c = Char.ofNat 11 || c = Char.ofNat 12

/-- Python `str.strip()` on a character list. -/
def pyStrip (l : List Char) : List Char :=
  ((l.dropWhile isPySpace).reverse.dropWhile isPySpace).reverse

/-- Python `str.strip()`. -/
def pyStripStr (s : String) : String := ⟨pyStrip s.data⟩

def isUpperAZ (c : Char) : Bool := 'A' ≤ c && c ≤ 'Z'

/-- ASCII lower-casing, as Python `str.lower()` acts on the ASCII data at hand. -/
def toLowerAZ (c : Char) : Char :=
  if isUpperAZ c then Char.ofNat (c.toNat + 32) else c

/-- Python `str.lower()`. -/
def lowerStr (s : String) : String := ⟨s.data.map toLowerAZ⟩

/-! ## `clean_column_name` (src/backend/src/utils/cleaning.py)

```python
def clean_column_name(name: str) -> str:
    s = re.sub(r'(?<!^)(?=[A-Z])', '_', name.strip())
    return s.lower().replace(' ', '_')
```
-/

/-- `re.sub(r'(?<!^)(?=[A-Z])', '_', ·)`: insert `_` before every capital
letter that is not the first character. -/
def camelMark : List Char → List Char
  | [] => []
  | c :: rest => c :: rest.flatMap (fun d => if isUpperAZ d then ['_', d] else [d])

def clean_column_name (name : String) : String :=
  let s := camelMark (pyStrip name.data)
  ⟨(s.map toLowerAZ).map (fun c => if c = ' ' then '_' else c)⟩

/-! ## `normalize_name` / `tokenize` (src/backend/src/semantic_field_mapping/normalize.py) -/

def isLowerAlnumU (c : Char) : Bool :=
  ('a' ≤ c && c ≤ 'z') || ('0' ≤ c && c ≤ '9') || c = '_'

/-- Collapse runs of `_` to a single `_` (`re.sub(r"_+", "_", ·)`). -/
def collapseUnders (l : List Char) : List Char :=
  l.foldr
    (fun c acc =>
      if c = '_' then
        match acc with
        | '_' :: _ => acc
        | _ => c :: acc
      else c :: acc)
    []

def stripUnders (l : List Char) : List Char :=
  ((l.dropWhile (· = '_')).reverse.dropWhile (· = '_')).reverse

/-- `normalize_name`.  The source replaces every run of characters outside
`[a-z0-9_]` with one `_` and then collapses `_` runs; replacing each such
character with `_` individually before collapsing yields the same string. -/
def normalize_name (name : String) : String :=
  let base := (clean_column_name name).data
  let replaced := base.map (fun c => if isLowerAlnumU c then c else '_')
  ⟨stripUnders (collapseUnders replaced)⟩

def isAlnumAZ09 (c : Char) : Bool :=
  ('A' ≤ c && c ≤ 'Z') || ('a' ≤ c && c ≤ 'z') || ('0' ≤ c && c ≤ '9')

/-- Maximal runs of `[A-Za-z0-9]+` (the `_WORD_RE` finditer). -/
def alnumRuns (l : List Char) : List (List Char) :=
  let p := l.foldr
    (fun c st =>
      if isAlnumAZ09 c then (c :: st.1, st.2)
      else ([], if st.1.isEmpty then st.2 else st.1 :: st.2))
    ([], [])
  if p.1.isEmpty then p.2 else p.1 :: p.2

def defaultStopwords : List String :=
  ["id", "ids", "no", "num", "nr", "code", "cd", "key",
   "flag", "is", "has", "at", "dt", "ts", "ref", "uid"]

/-- `tokenize(name)` with the default stopword set. -/
def tokenize (name : String) : List String :=
  let s := normalize_name name
  ((alnumRuns s.data).map (fun r => (⟨r⟩ : String))).filter
    (fun t => ¬ defaultStopwords.contains t)

/-! ## Scorers (src/src/semantic_filed_mapping/scorers.py) -/

/-- Token-set Jaccard similarity (`jaccard` in scorers.py): Python converts
both lists to sets; set membership and cardinality are modelled through
deduplicated lists. -/
def jaccard (a b : List String) : ℚ :=
  if a = [] ∧ b = [] then 0
  else
    let inter := (a.dedup.filter (fun x => b.contains x)).length
    let union := (a ++ b).dedup.length
    if union = 0 then 0 else (inter : ℚ) / (union : ℚ)

/-- Length of the longest common prefix of two character lists. -/
def cpl : List Char → List Char → Nat
  | a :: as, b :: bs => if a = b then cpl as bs + 1 else 0
  | _, _ => 0

/-- `difflib.SequenceMatcher.find_longest_match` (no junk, strings shorter
than the autojunk limit): the longest matching block, ties resolved by the
earliest start in `a`, then the earliest start in `b`. -/
def findLongestMatch (a b : List Char) : Nat × Nat × Nat :=
  let cands := (List.range a.length).flatMap
    (fun i => (List.range b.length).map (fun j => (i, j, cpl (a.drop i) (b.drop j))))
  cands.foldl (fun best c => if best.2.2 < c.2.2 then c else best) (0, 0, 0)

/-- Total size of all matching blocks (`get_matching_blocks`): recursively
split around the longest match.  The fuel argument bounds the recursion
depth; `a.length + b.length + 1` always suffices since each recursive call
strictly decreases the combined length. -/
def matchingTotal : Nat → List Char → List Char → Nat
  | 0, _, _ => 0
  | fuel + 1, a, b =>
    let m := findLongestMatch a b
    let i := m.1
    let j := m.2.1
    let k := m.2.2
    if k = 0 then 0
    else
      k + matchingTotal fuel (a.take i) (b.take j)
        + matchingTotal fuel (a.drop (i + k)) (b.drop (j + k))

/-- `difflib.SequenceMatcher(a=·, b=·).ratio()` = `2*M / (len(a)+len(b))`
(and `1.0` when both strings are empty). -/
def seqScore (a b : List Char) : ℚ :=
  if a.length + b.length = 0 then 1
  else (2 * (matchingTotal (a.length + b.length + 1) a b) : ℚ) / (a.length + b.length : ℚ)

/-- The component scores returned by `base_name_scores`. -/
structure SignalComps where
  exact : ℚ
  normExact : ℚ
  syn : ℚ
  jac : ℚ
  seq : ℚ
  lengthPenalty : ℚ
deriving DecidableEq, Repr

/-- Synonym dictionaries (`Mapping[str, List[str]]`) as association lists
with unique keys, preserving insertion order. -/
abbrev Syns : Type := List (String × List String)

/-- `synonyms.get(k)`. -/
def synGet (s : Syns) (k : String) : Option (List String) :=
  ((s : List (String × List String)).find? (fun p => p.1 = k)).map (·.2)

/-- Python `x or y or []` on optional lists: `None` and `[]` are falsy. -/
def pyOrList (a b : Option (List String)) : List String :=
  match a with
  | some l => if l.isEmpty then b.getD [] else l
  | none => b.getD []

/-- `base_name_scores(src, ref, synonyms)`. -/
def base_name_scores (src ref : String) (synonyms : Syns) : SignalComps :=
  let exact : ℚ := if src = ref then 1 else 0
  let srcN := normalize_name src
  let refN := normalize_name ref
  let normExact : ℚ := if srcN = refN then 98 / 100 else 0
  let srcT := tokenize srcN
  let refT := tokenize refN
  let jac := jaccard srcT refT
  let seq := seqScore srcN.data refN.data
  let aliases := pyOrList (synGet synonyms ref) (synGet synonyms refN)
  let aliasesN := aliases.map normalize_name
  let syn : ℚ :=
    if (synonyms : List (String × List String)) ≠ [] ∧
        (src ∈ aliases ∨ srcN ∈ aliasesN ∨ srcT.any (fun t => aliasesN.contains t)) then
      97 / 100
    else 0
  let lengthPenalty : ℚ :=
    match srcT with
    | [t] => if t.length ≤ 2 ∧ srcN ≠ refN then -2 / 100 else 0
    | _ => 0
  { exact := exact, normExact := normExact, syn := syn, jac := jac,
    seq := seq, lengthPenalty := lengthPenalty }

/-- The detail record returned by `aggregate_score` next to the final score. -/
structure ScoreDetail where
  comps : SignalComps
  dtypeBoost : ℚ
  patternBoost : ℚ
  base : ℚ
  final : ℚ
deriving DecidableEq, Repr

/-- `aggregate_score(components, dtype_boost, pattern_boost)`:
`max(exact, norm_exact, synonym, jaccard, seq) + boosts + length_penalty`,
clamped to `[0, 1]`. -/
def aggregate_score (c : SignalComps) (dtypeBoost patternBoost : ℚ) : ℚ × ScoreDetail :=
  let base := max c.exact (max c.normExact (max c.syn (max c.jac c.seq)))
  let score := max 0 (min 1 (base + dtypeBoost + patternBoost + c.lengthPenalty))
  (score, { comps := c, dtypeBoost := dtypeBoost, patternBoost := patternBoost,
            base := base, final := score })

/-! ## Pattern library (src/backend/src/semantic_field_mapping/patterns.py and
the two extra patterns of src/backend/src/schema_recognition/inference/semantic.py)

Each compiled regex is embedded as a matcher on character lists through small
continuation combinators.  `re.match` succeeds iff some way of consuming the
string fits the pattern, which the combinators express as bounded existential
search; greedy/lazy quantifiers only change which parse is found, not whether
one exists, and the code uses only the truth value of the match. -/

/-- A matcher consumes some prefix of the remaining input and hands the rest
to its continuation. -/
abbrev Matcher := List Char → Bool

/-- End of input (`$` anchor). -/
def mEnd : Matcher := fun s => s.isEmpty

/-- No anchor: accept any remainder (for `re.match` of an unanchored tail). -/
def mAny : Matcher := fun _ => true

/-- Match one character of the class `p`. -/
def mch (p : Char → Bool) (k : Matcher) : Matcher :=
  fun s => match s with
  | [] => false
  | c :: rest => p c && k rest

/-- Match one literal character. -/
def mlit (c : Char) (k : Matcher) : Matcher := mch (· = c) k

/-- Match a literal character sequence. -/
def mstr (cs : List Char) (k : Matcher) : Matcher := cs.foldr mlit k

/-- `p{lo,hi}`: between `lo` and `hi` characters of class `p`. -/
def mrep (p : Char → Bool) (lo hi : Nat) (k : Matcher) : Matcher :=
  fun s => (List.range (hi + 1)).any
    (fun n => lo ≤ n && n ≤ s.length && (s.take n).all p && k (s.drop n))

/-- `p{n}`: exactly `n` characters of class `p`. -/
def mexact (p : Char → Bool) (n : Nat) (k : Matcher) : Matcher :=
  fun s => (s.take n).length = n && (s.take n).all p && k (s.drop n)

/-- `p+`. -/
def mplus (p : Char → Bool) (k : Matcher) : Matcher :=
  fun s => mrep p 1 s.length k s

/-- `p*`. -/
def mstar (p : Char → Bool) (k : Matcher) : Matcher :=
  fun s => mrep p 0 s.length k s

/-- `p{n,}`: at least `n` characters of class `p`. -/
def matLeast (p : Char → Bool) (n : Nat) (k : Matcher) : Matcher :=
  fun s => mrep p n s.length k s

/-- `p?` on a single character class. -/
def mopt (p : Char → Bool) (k : Matcher) : Matcher :=
  fun s => k s || mch p k s

/-- `(...)?` on a sub-pattern. -/
def mgopt (g : Matcher → Matcher) (k : Matcher) : Matcher :=
  fun s => k s || g k s

/-- `(x|y|...)` alternation of sub-patterns. -/
def malt (gs : List (Matcher → Matcher)) (k : Matcher) : Matcher :=
  fun s => gs.any (fun g => g k s)

/-- `\d` (the data is ASCII). -/
def dC (c : Char) : Bool := '0' ≤ c && c ≤ '9'

def alphaC (c : Char) : Bool := ('A' ≤ c && c ≤ 'Z') || ('a' ≤ c && c ≤ 'z')

/-- `\s`. -/
def wsC (c : Char) : Bool := isPySpace c

/-- `EMAIL_RE = ^[A-Za-z0-9._%+-]+@[A-Za-z0-9.-]+\.[A-Za-z]{2,}$`. -/
def emailMatch : Matcher :=
  mplus (fun c => alphaC c || dC c || c = '.' || c = '_' || c = '%' || c = '+' || c = '-')
    (mlit '@' (mplus (fun c => alphaC c || dC c || c = '.' || c = '-')
      (mlit '.' (matLeast alphaC 2 mEnd))))

/-- `URL_RE = ^(https?://|www\.)` with `re.IGNORECASE` (prefix match, no `$`). -/
def urlMatch : Matcher := fun s =>
  let t := s.map toLowerAZ
  mstr "http".data (mopt (· = 's') (mstr "://".data mAny)) t || mstr "www.".data mAny t

def hexC (c : Char) : Bool := dC c || ('a' ≤ c && c ≤ 'f')

/-- `UUID_RE` (`re.IGNORECASE`: matched on the lower-cased string). -/
def uuidMatch : Matcher := fun s =>
  let t := s.map toLowerAZ
  mexact hexC 8 (mlit '-' (mexact hexC 4 (mlit '-'
    (mch (fun c => '1' ≤ c && c ≤ '5') (mexact hexC 3 (mlit '-'
      (mch (fun c => c = '8' || c = '9' || c = 'a' || c = 'b') (mexact hexC 3 (mlit '-'
        (mexact hexC 12 mEnd)))))))))) t

/-- `DATE_RE = ^\d{4}-\d{2}-\d{2}$`. -/
def dateMatch : Matcher :=
  mexact dC 4 (mlit '-' (mexact dC 2 (mlit '-' (mexact dC 2 mEnd))))

/-- `DATETIME_RE = ^\d{4}-\d{2}-\d{2}[ T]\d{2}:\d{2}(:\d{2})?(?:[+-]\d{2}:?\d{2})?$`. -/
def datetimeMatch : Matcher :=
  mexact dC 4 (mlit '-' (mexact dC 2 (mlit '-' (mexact dC 2
    (mch (fun c => c = ' ' || c = 'T') (mexact dC 2 (mlit ':' (mexact dC 2
      (mgopt (fun k => mlit ':' (mexact dC 2 k))
        (mgopt (fun k => mch (fun c => c = '+' || c = '-')
          (mexact dC 2 (mopt (· = ':') (mexact dC 2 k)))) mEnd))))))))))

/-- `PRICE_RE = ^[\$€£]?\s?\d+[\.,]?\d*$`. -/
def priceMatch : Matcher :=
  mopt (fun c => c = '$' || c = '€' || c = '£')
    (mopt wsC (mplus dC (mopt (fun c => c = '.' || c = ',') (mstar dC mEnd))))

def phoneSepC (c : Char) : Bool := wsC c || c = '-'

/-- `PHONE_RE = ^\+?\d{1,3}?[\s-]?\(?\d{2,4}\)?[\s-]?\d{3,4}[\s-]?\d{3,4}$`. -/
def phoneMatch : Matcher :=
  mopt (· = '+') (mrep dC 1 3 (mopt phoneSepC (mopt (· = '(')
    (mrep dC 2 4 (mopt (· = ')') (mopt phoneSepC
      (mrep dC 3 4 (mopt phoneSepC (mrep dC 3 4 mEnd)))))))))

/-- One IPv4 octet: `25[0-5]|2[0-4][0-9]|[01]?[0-9][0-9]?`. -/
def ipOctet (k : Matcher) : Matcher :=
  malt
    [fun k2 => mlit '2' (mlit '5' (mch (fun c => '0' ≤ c && c ≤ '5') k2)),
     fun k2 => mlit '2' (mch (fun c => '0' ≤ c && c ≤ '4') (mch dC k2)),
     fun k2 => mopt (fun c => c = '0' || c = '1') (mch dC (mopt dC k2))]
    k

/-- `IP_RE = ^(?:octet\.){3}octet$`. -/
def ipMatch : Matcher :=
  ipOctet (mlit '.' (ipOctet (mlit '.' (ipOctet (mlit '.' (ipOctet mEnd))))))

/-- `CREDIT_CARD_RE` (Visa, MasterCard, Amex, Diners, Discover, JCB). -/
def creditCardMatch : Matcher :=
  malt
    [fun k => mlit '4' (mexact dC 12 (mgopt (fun k2 => mexact dC 3 k2) k)),
     fun k => mlit '5' (mch (fun c => '1' ≤ c && c ≤ '5') (mexact dC 14 k)),
     fun k => mlit '3' (mch (fun c => c = '4' || c = '7') (mexact dC 13 k)),
     fun k => mlit '3' (malt
       [fun k2 => mlit '0' (mch (fun c => '0' ≤ c && c ≤ '5') k2),
        fun k2 => mch (fun c => c = '6' || c = '8') (mch dC k2)]
       (mexact dC 11 k)),
     fun k => mlit '6' (malt
       [fun k2 => mstr "011".data k2,
        fun k2 => mlit '5' (mexact dC 2 k2)]
       (mexact dC 12 k)),
     fun k => malt
       [fun k2 => mstr "2131".data k2,
        fun k2 => mstr "1800".data k2,
        fun k2 => mstr "35".data (mexact dC 3 k2)]
       (mexact dC 11 k)]
    mEnd

/-! ## `SemanticTypeDetector` (src/backend/src/schema_recognition/inference/semantic.py) -/

/-- `SemanticTypeDetector.PATTERNS`, in dict insertion order. -/
def patternList : List (String × Matcher) :=
  [("Email", emailMatch), ("URL", urlMatch), ("UUID", uuidMatch),
   ("Date", dateMatch), ("DateTime", datetimeMatch), ("Price", priceMatch),
   ("Phone", phoneMatch), ("IP Address", ipMatch), ("Credit Card", creditCardMatch)]

/-- One iteration of the value loop of `_match_type`: strip the value, skip it
if empty, otherwise increment every matching pattern counter. -/
def stepCounts (counts : List ((String × Matcher) × Nat)) (v : String) :
    List ((String × Matcher) × Nat) :=
  let t := pyStrip v.data
  if t.isEmpty then counts
  else counts.map (fun pc => if pc.1.2 t then (pc.1, pc.2 + 1) else pc)

/-- `SemanticTypeDetector._match_type(values)`: build the counter dict, then
return the first pattern (in `PATTERNS` order) whose `count / total > 0.5`,
where `total = len(values)`. -/
def matchType (values : List String) : Option String :=
  if values.isEmpty then none
  else
    let total := values.length
    let counts := values.foldl stepCounts (patternList.map (fun p => (p, 0)))
    (counts.find? (fun pc => (1 : ℚ) / 2 < (pc.2 : ℚ) / (total : ℚ))).map (fun pc => pc.1.1)

/-- A polars column as seen by the detector and the mapper: the detector only
reads `Utf8` columns, and the mapper additionally distinguishes numeric
storage (for its dtype boost) from any other dtype. -/
inductive ColVals where
  | utf8 (vals : List (Option String))
  | numeric (len : Nat)
  | other (len : Nat)
deriving DecidableEq, Repr

/-- `SemanticTypeDetector.detect` restricted to one column (the mapper always
calls it on a single-column frame): non-`Utf8` columns are skipped, otherwise
up to `sample_size` non-null values are drawn and `_match_type` is applied. -/
def detectCol (c : ColVals) (sampleSize : Nat) : Option String :=
  match c with
  | .utf8 vals =>
    let sample := (vals.filterMap id).take sampleSize
    if sample.isEmpty then none else matchType sample
  | _ => none

/-! ## `SemanticFieldMapper` (src/backend/src/semantic_field_mapping/mapper.py)

The snapshot ships no `synonyms.json`, so `DEFAULT_SYNONYMS = {}` and the
merged synonym dictionary equals the caller-supplied one. -/

/-- Mapper configuration (`SemanticFieldMapper.__init__` fields). -/
structure MapperCfg where
  referenceFields : List String
  synonyms : Syns
  threshold : ℚ
  epsilon : ℚ
  force : Bool
deriving DecidableEq, Repr

/-- Mapper defaults: `threshold=0.72`, `epsilon=0.03`, `force=False`. -/
def defaultCfg (refs : List String) : MapperCfg :=
  { referenceFields := refs, synonyms := [], threshold := 72 / 100,
    epsilon := 3 / 100, force := false }

/-- The numeric-dtype boost of `_scores_for_column` (`0.02` for numeric
storage types, `0` otherwise, and `0` when no series is available). -/
def dtypeBoostOf : Option ColVals → ℚ
  | some (.numeric _) => 2 / 100
  | _ => 0

/-- The per-reference pattern boost of `_scores_for_column`: `0.5` if the
detected semantic type equals the reference field after normalization, or
appears among the reference field's normalized aliases. -/
def patternBoostFor (synonyms : Syns) (detected : Option String) (ref : String) : ℚ :=
  match detected with
  | none => 0
  | some t =>
    let refN := normalize_name ref
    let typeN := normalize_name t
    if refN = typeN then 1 / 2
    else
      let aliases := pyOrList (synGet synonyms ref) (synGet synonyms refN)
      if (aliases.map normalize_name).contains typeN then 1 / 2 else 0

/-- A ranked mapping candidate. -/
structure Candidate where
  ref : String
  score : ℚ
  details : ScoreDetail
deriving DecidableEq, Repr

/-- Insert a candidate after every already-placed candidate of score `≥` its
own (the insertion step of a stable descending sort). -/
def insertByScore (c : Candidate) : List Candidate → List Candidate
  | [] => [c]
  | d :: rest => if d.score ≤ c.score then c :: d :: rest else d :: insertByScore c rest

/-- `candidates.sort(key=·.score, reverse=True)`: Python `list.sort` is
stable; a stable insertion sort on the descending score order produces the
identical list. -/
def sortByScoreDesc : List Candidate → List Candidate
  | [] => []
  | c :: rest => insertByScore c (sortByScoreDesc rest)

/-- `SemanticFieldMapper._scores_for_column`: detector and dtype boosts from
the values, one aggregated candidate per reference field, sorted by
descending score (Python `list.sort` is stable, as is `mergeSort`). -/
def scoresForColumn (cfg : MapperCfg) (colName : String) (series : Option ColVals) :
    List Candidate :=
  let detected := match series with
    | some s => detectCol s 200
    | none => none
  let db := dtypeBoostOf series
  let cands := cfg.referenceFields.map (fun ref =>
    let pb := patternBoostFor cfg.synonyms detected ref
    let r := aggregate_score (base_name_scores colName ref cfg.synonyms) db pb
    { ref := ref, score := r.1, details := r.2 : Candidate })
  sortByScoreDesc cands

/-- The accepted-mapping record (`{target, score, reason}`). -/
structure MappedEntry where
  target : String
  score : ℚ
  reason : ScoreDetail
deriving DecidableEq, Repr

/-- Terminal outcome of the per-column state machine in `map_columns`. -/
inductive ColOutcome where
  | mappedTo (e : MappedEntry)
  | flaggedAmbiguous (cands : List (String × ℚ))
  | leftUnmapped
deriving DecidableEq, Repr

/-- The per-column body of the `map_columns` loop, from the ranked candidate
list: acceptance against `threshold`, the `epsilon` ambiguity window, and the
case-insensitive duplicate-reference resolution (`best.ref.lower() ==
second.ref.lower()`). -/
def classifyColumn (cfg : MapperCfg) (cands : List Candidate) : ColOutcome :=
  match cands with
  | [] => .leftUnmapped
  | best :: rest =>
    let ambiguous : Bool := match rest.head? with
      | some second => best.score - second.score ≤ cfg.epsilon
      | none => false
    if ¬ (cfg.threshold ≤ best.score) then .leftUnmapped
    else if ambiguous && ¬ cfg.force then
      match rest.head? with
      | some second =>
        if lowerStr best.ref = lowerStr second.ref then
          .mappedTo { target := best.ref, score := best.score, reason := best.details }
        else
          .flaggedAmbiguous
            ((cands.take (min 5 cands.length)).map (fun c => (c.ref, c.score)))
      | none =>
        .mappedTo { target := best.ref, score := best.score, reason := best.details }
    else .mappedTo { target := best.ref, score := best.score, reason := best.details }

/-- The result dict of `map_columns` (Python dicts keep insertion order, so
the four buckets are association lists in column order). -/
structure MapResult where
  mapping : List (String × MappedEntry)
  ambiguous : List (String × List (String × ℚ))
  unmapped : List String
  scores : List (String × List (String × ℚ))
deriving DecidableEq, Repr

/-- One iteration of the column loop of `map_columns`. -/
def mapStep (cfg : MapperCfg) (acc : MapResult) (p : String × Option ColVals) : MapResult :=
  let cands := scoresForColumn cfg p.1 p.2
  let acc := { acc with
    scores := acc.scores ++ [(p.1, cands.map (fun c : Candidate => (c.ref, c.score)))] }
  match classifyColumn cfg cands with
  | .mappedTo e => { acc with mapping := acc.mapping ++ [(p.1, e)] }
  | .flaggedAmbiguous l => { acc with ambiguous := acc.ambiguous ++ [(p.1, l)] }
  | .leftUnmapped => { acc with unmapped := acc.unmapped ++ [p.1] }

/-- `SemanticFieldMapper.map_columns`.  The input is the column list paired
with each column's series when a dataframe is given (`df[col]`), or `none`
when only column names are given. -/
def map_columns (cfg : MapperCfg) (cols : List (String × Option ColVals)) : MapResult :=
  cols.foldl (mapStep cfg) ⟨[], [], [], []⟩

/-! ## Type inference (src/backend/src/schema_recognition/inference/type_inference.py)

`refine_col_type` works on one originally-`Utf8` column; the per-value cast
semantics of polars (`cast(Int64/Float64, strict=False)`, `str.to_date`,
`str.to_datetime`) are modelled per value.  Date/datetime parsing is modelled
for the ISO shapes the parser recognizes; the inputs exercised by the claims
(pure-letter strings such as `"t"`) fail every numeric, date and datetime
parse both in polars and in this model. -/

/-- Digits to the number they denote, most significant first. -/
def digitsToNat (l : List Char) : Nat :=
  l.foldl (fun (acc : Nat) (c : Char) => 10 * acc + (c.toNat - '0'.toNat)) 0

/-- The `bool_map` of `refine_col_type` (applied after `str.to_lowercase()`). -/
def boolMapLookup (s : String) : Option Bool :=
  (([("true", true), ("false", false), ("1", true), ("0", false),
     ("yes", true), ("no", false), ("t", true), ("f", false),
     ("y", true), ("n", false)] : List (String × Bool)).find? (fun p => p.1 = s)).map (·.2)

/-- The guard set of the boolean branch:
`lower_vals.issubset({"true","false","0","1","yes","no"})`. -/
def boolGuardSet : List String := ["true", "false", "0", "1", "yes", "no"]

/-- Polars `cast(pl.Int64, strict=False)` on a string: optional sign followed
by at least one ASCII digit (the Int64 range is irrelevant at the values the
claims exercise). -/
def intParse (s : String) : Option Int :=
  let l := s.data
  let core := match l with
    | '-' :: rest => some (true, rest)
    | '+' :: rest => some (false, rest)
    | rest => some (false, rest)
  match core with
  | some (neg, digits) =>
    if digits ≠ [] ∧ digits.all dC then
      let n := digitsToNat digits
      some (if neg then -(n : Int) else (n : Int))
    else none
  | none => none

/-- Polars `cast(pl.Float64, strict=False)` on a string, modelled over `ℚ`
for the decimal shapes (`[+-]?digits[.digits][e[+-]digits]`); the exact
rounded value is irrelevant to the claims, only parse success. -/
def floatParse (s : String) : Option ℚ :=
  let step (l : List Char) : Option (Bool × List Char) := match l with
    | '-' :: rest => some (true, rest)
    | '+' :: rest => some (false, rest)
    | rest => some (false, rest)
  match step s.data with
  | some (neg, body) =>
    let mantissa := fun (l : List Char) =>
      let ip := l.takeWhile dC
      let rest := l.dropWhile dC
      match rest with
      | '.' :: fp0 =>
        let fp := fp0.takeWhile dC
        let rest2 := fp0.dropWhile dC
        if ip.isEmpty ∧ fp.isEmpty then none
        else some (((digitsToNat ip : ℚ)
          + (digitsToNat fp : ℚ) / ((10 : ℚ) ^ fp.length)), rest2)
      | _ =>
        if ip.isEmpty then none
        else some ((digitsToNat ip : ℚ), rest)
    match mantissa body with
    | some (m, rest) =>
      let signed := if neg then -m else m
      match rest with
      | [] => some signed
      | e :: erest =>
        if e = 'e' ∨ e = 'E' then
          match step erest with
          | some (eneg, ed) =>
            if ed ≠ [] ∧ ed.all dC then
              let ev := digitsToNat ed
              some (if eneg then signed / (10 : ℚ) ^ ev else signed * (10 : ℚ) ^ ev)
            else none
          | none => none
        else none
    | none => none
  | none => none

/-- Polars `str.to_date(strict=False)` without a format string, modelled for
the ISO `YYYY-MM-DD` shape with basic calendar bounds. -/
def dateParse (s : String) : Option (Nat × Nat × Nat) :=
  match s.data with
  | [y1, y2, y3, y4, '-', m1, m2, '-', d1, d2] =>
    if [y1, y2, y3, y4, m1, m2, d1, d2].all dC then
      let y := digitsToNat [y1, y2, y3, y4]
      let m := digitsToNat [m1, m2]
      let d := digitsToNat [d1, d2]
      if 1 ≤ m ∧ m ≤ 12 ∧ 1 ≤ d ∧ d ≤ 31 then some (y, m, d) else none
    else none
  | _ => none

/-- Polars `str.to_datetime(strict=False)` without a format string, modelled
for the ISO `YYYY-MM-DD[ T]HH:MM[:SS]` shapes. -/
def datetimeParse (s : String) : Option ((Nat × Nat × Nat) × (Nat × Nat × Nat)) :=
  let l := s.data
  let datePart := l.take 10
  let rest := l.drop 10
  match dateParse ⟨datePart⟩ with
  | none => none
  | some ymd =>
    match rest with
    | [sep, h1, h2, ':', n1, n2] =>
      if (sep = ' ' ∨ sep = 'T') ∧ [h1, h2, n1, n2].all dC ∧
          digitsToNat [h1, h2] ≤ 23 ∧ digitsToNat [n1, n2] ≤ 59 then
        some (ymd, (digitsToNat [h1, h2], digitsToNat [n1, n2], 0))
      else none
    | [sep, h1, h2, ':', n1, n2, ':', s1, s2] =>
      if (sep = ' ' ∨ sep = 'T') ∧ [h1, h2, n1, n2, s1, s2].all dC ∧
          digitsToNat [h1, h2] ≤ 23 ∧ digitsToNat [n1, n2] ≤ 59 ∧ digitsToNat [s1, s2] ≤ 59 then
        some (ymd, (digitsToNat [h1, h2], digitsToNat [n1, n2], digitsToNat [s1, s2]))
      else none
    | _ => none

/-- The column produced by `refine_col_type`: either the original text column
or the successfully cast column. -/
inductive RefinedCol where
  | text (vals : List (Option String))
  | boolC (vals : List (Option Bool))
  | intC (vals : List (Option Int))
  | floatC (vals : List (Option ℚ))
  | dateC (vals : List (Option (Nat × Nat × Nat)))
  | datetimeC (vals : List (Option ((Nat × Nat × Nat) × (Nat × Nat × Nat))))
deriving DecidableEq, Repr

/-- `refine_col_type(df, col)` on the column's values: filter the valid
(non-null, non-empty) subset; attempt Boolean (`≤ 2` distinct values, all in
the guard set after lower-casing, re-cast of the valid subset producing no
nulls), then Integer, Float, Date, Datetime, each validated by requiring zero
induced nulls on the valid subset; otherwise keep the text column. -/
def refine_col_type (vals : List (Option String)) : RefinedCol :=
  let valid := (vals.filterMap id).filter (fun s => s ≠ "")
  if valid.isEmpty then .text vals
  else if valid.dedup.length ≤ 2 ∧
      valid.dedup.all (fun v => boolGuardSet.contains (lowerStr v)) ∧
      valid.all (fun v => (boolMapLookup (lowerStr v)).isSome) then
    .boolC (vals.map (fun o => o.bind (fun s => boolMapLookup (lowerStr s))))
  else if valid.all (fun v => (intParse v).isSome) then
    .intC (vals.map (fun o => o.bind intParse))
  else if valid.all (fun v => (floatParse v).isSome) then
    .floatC (vals.map (fun o => o.bind floatParse))
  else if valid.all (fun v => (dateParse v).isSome) then
    .dateC (vals.map (fun o => o.bind dateParse))
  else if valid.all (fun v => (datetimeParse v).isSome) then
    .datetimeC (vals.map (fun o => o.bind datetimeParse))
  else .text vals

/-! ## Z-score detector (src/backend/src/anomaly_detection/rules.py)

A dataframe row is a payload (the other columns) together with the value of
the selected numeric column; a missing value (`null`, which `to_numpy`
renders as NaN) is `none`.  `np.nanmean`/`np.nanstd` ignore the `none`
entries; `np.nanstd` is the population standard deviation `√variance`.  The
mask `|value − mean| / std > threshold` is `False` on NaN entries.  The
square root leaves `ℚ`, so the filter decides the equivalent condition
`threshold < 0 ∨ threshold² · variance < (value − mean)²` (for positive
variance); the claim theorem proves this equal to the source's
`|value − mean| / √variance > threshold` over `ℝ`. -/

/-- `np.nanmean` over the present values. -/
def nanmean (l : List ℚ) : ℚ := l.sum / (l.length : ℚ)

/-- `np.nanstd(·)²`: the population variance of the present values. -/
def nanvariance (l : List ℚ) : ℚ :=
  ((l.map (fun v => (v - nanmean l) ^ 2)).sum) / (l.length : ℚ)

/-- `z_score_anomalies(df, column, threshold)`. -/
def z_score_anomalies {α : Type} (rows : List (α × Option ℚ)) (threshold : ℚ) :
    List (α × Option ℚ) :=
  let present := rows.filterMap (fun r => r.2)
  if present.isEmpty then []
  else
    let mean := nanmean present
    let variance := nanvariance present
    if variance = 0 then []
    else rows.filter (fun r => match r.2 with
      | none => false
      | some v => threshold < 0 ∨ threshold ^ 2 * variance < (v - mean) ^ 2)

/-! ## Missing-value detector (src/backend/src/anomaly_detection/missing_values.py) -/

/-- A polars cell, with enough structure to decide missingness. -/
inductive PCell where
  | null
  | str (s : String)
  | num (q : ℚ)
deriving DecidableEq, Repr

/-- A polars dataframe: named columns (with an is-`Utf8` dtype flag) and rows
of cells aligned with the column list. -/
structure PFrame where
  cols : List (String × Bool)
  rows : List (List PCell)
deriving DecidableEq, Repr

/-- Whether a cell counts as missing for its column: `is_null()` always, and
additionally `== ""` for `Utf8` columns. -/
def cellMissing (isUtf8 : Bool) (c : PCell) : Bool :=
  match c with
  | .null => true
  | .str s => isUtf8 && s = ""
  | .num _ => false

/-- The summed missing-count expression evaluated on one row. -/
def rowMissingCount (cols : List (String × Bool)) (row : List PCell) : Nat :=
  ((cols.zip row).filter (fun p => cellMissing p.1.2 p.2)).length

/-- `df.with_columns(missing_count_expr.alias("_missing_count"))`: polars
replaces an existing column of that name in place, otherwise appends. -/
def withMissingCount (df : PFrame) : PFrame :=
  let counts := df.rows.map (fun r => rowMissingCount df.cols r)
  if df.cols.any (fun c => c.1 = "_missing_count") then
    { cols := df.cols.map (fun c => if c.1 = "_missing_count" then ("_missing_count", false) else c),
      rows := (df.rows.zip counts).map (fun rc =>
        let i := df.cols.findIdx (fun c => c.1 = "_missing_count")
        rc.1.set i (.num (rc.2 : ℚ))) }
  else
    { cols := df.cols ++ [("_missing_count", false)],
      rows := (df.rows.zip counts).map (fun rc => rc.1 ++ [.num (rc.2 : ℚ)]) }

/-- `df.drop(name)`: remove the named column. -/
def dropColumn (df : PFrame) (name : String) : PFrame :=
  let i := df.cols.findIdx (fun c => c.1 = name)
  { cols := df.cols.eraseIdx i, rows := df.rows.map (fun r => r.eraseIdx i) }

/-- `df_with_counts.filter(pl.col("_missing_count") >= threshold)`: keep the
rows whose `_missing_count` cell is at least the threshold. -/
def filterByMissingCount (dfc : PFrame) (threshold : Int) : PFrame :=
  let i := dfc.cols.findIdx (fun c => c.1 = "_missing_count")
  { cols := dfc.cols,
    rows := dfc.rows.filter (fun r => match r[i]? with
      | some (.num q) => (threshold : ℚ) ≤ q
      | _ => false) }

/-- `detect_missing_value_anomalies(df, threshold)`. -/
def detect_missing_value_anomalies (df : PFrame) (threshold : Int) : PFrame :=
  if df.rows.isEmpty then { cols := df.cols, rows := [] }
  else
    dropColumn (filterByMissingCount (withMissingCount df) threshold) "_missing_count"

/-! ## Dynamic reference fields (src/backend/src/assistant/runner.py, `run_assistant`) -/

/-- Step 2 of `run_assistant`: the union of all column names across all
datasets (`global_columns`). -/
def globalColumns (datasets : List (List String)) : Finset String :=
  datasets.foldl (fun acc cols => acc ∪ cols.toFinset) ∅

/-- Step 3 of `run_assistant` for the dataset at index `i`:
`dynamic_refs = set(reference_fields) | (global_columns - current_cols)`. -/
def dynamicRefs (userRefs : List String) (datasets : List (List String)) (i : Nat) :
    Finset String :=
  let currentCols := (datasets.getD i []).toFinset
  userRefs.toFinset ∪ (globalColumns datasets \ currentCols)

/-! ## Helper lemmas about the mapper loop -/

/-- The terminal outcome of the `map_columns` loop body for one column. -/
def colOutcome (cfg : MapperCfg) (p : String × Option ColVals) : ColOutcome :=
  classifyColumn cfg (scoresForColumn cfg p.1 p.2)

/-- The `mapping` entries contributed by a column list. -/
def mappedBucket (cfg : MapperCfg) (cols : List (String × Option ColVals)) :
    List (String × MappedEntry) :=
  cols.filterMap (fun p => match colOutcome cfg p with
    | .mappedTo e => some (p.1, e)
    | _ => none)

/-- The `ambiguous` entries contributed by a column list. -/
def ambiguousBucket (cfg : MapperCfg) (cols : List (String × Option ColVals)) :
    List (String × List (String × ℚ)) :=
  cols.filterMap (fun p => match colOutcome cfg p with
    | .flaggedAmbiguous l => some (p.1, l)
    | _ => none)

/-- The `unmapped` entries contributed by a column list. -/
def unmappedBucket (cfg : MapperCfg) (cols : List (String × Option ColVals)) :
    List String :=
  cols.filterMap (fun p => match colOutcome cfg p with
    | .leftUnmapped => some p.1
    | _ => none)

lemma foldl_mapStep_eq (cfg : MapperCfg) :
    ∀ (cols : List (String × Option ColVals)) (acc : MapResult),
      cols.foldl (mapStep cfg) acc =
        { mapping := acc.mapping ++ mappedBucket cfg cols,
          ambiguous := acc.ambiguous ++ ambiguousBucket cfg cols,
          unmapped := acc.unmapped ++ unmappedBucket cfg cols,
          scores := acc.scores ++ cols.map (fun p =>
            (p.1, (scoresForColumn cfg p.1 p.2).map (fun c => (c.ref, c.score)))) }
  | [], acc => by
    simp [mappedBucket, ambiguousBucket, unmappedBucket]
  | p :: ps, acc => by
    rw [List.foldl_cons, foldl_mapStep_eq cfg ps]
    rcases hout : colOutcome cfg p with e | l | _ <;>
      · have hout2 := hout
        unfold colOutcome at hout2
        simp only [mapStep, hout2, List.filterMap_cons, List.map_cons]
        simp [mappedBucket, ambiguousBucket, unmappedBucket, hout, List.filterMap_cons]

lemma map_columns_eq (cfg : MapperCfg) (cols : List (String × Option ColVals)) :
    map_columns cfg cols =
      { mapping := mappedBucket cfg cols,
        ambiguous := ambiguousBucket cfg cols,
        unmapped := unmappedBucket cfg cols,
        scores := cols.map (fun p =>
          (p.1, (scoresForColumn cfg p.1 p.2).map (fun c => (c.ref, c.score)))) } := by
  have h := foldl_mapStep_eq cfg cols ⟨[], [], [], []⟩
  simpa [map_columns] using h

lemma mem_mapping_keys_iff (cfg : MapperCfg) (cols : List (String × Option ColVals))
    (name : String) :
    name ∈ (map_columns cfg cols).mapping.map (fun e => e.1) ↔
      ∃ p ∈ cols, p.1 = name ∧ ∃ e, colOutcome cfg p = ColOutcome.mappedTo e := by
  rw [map_columns_eq]
  simp only [mappedBucket, List.mem_map, List.mem_filterMap]
  constructor
  · rintro ⟨pr, ⟨p, hp, hmatch⟩, hfst⟩
    rcases hout : colOutcome cfg p with e | l | _ <;> rw [hout] at hmatch <;>
      simp at hmatch
    subst hmatch
    exact ⟨p, hp, by simpa using hfst, ⟨e, hout⟩⟩
  · rintro ⟨p, hp, hname, e, hout⟩
    exact ⟨(p.1, e), ⟨p, hp, by rw [hout]⟩, hname⟩

lemma mem_ambiguous_keys_iff (cfg : MapperCfg) (cols : List (String × Option ColVals))
    (name : String) :
    name ∈ (map_columns cfg cols).ambiguous.map (fun e => e.1) ↔
      ∃ p ∈ cols, p.1 = name ∧ ∃ l, colOutcome cfg p = ColOutcome.flaggedAmbiguous l := by
  rw [map_columns_eq]
  simp only [ambiguousBucket, List.mem_map, List.mem_filterMap]
  constructor
  · rintro ⟨pr, ⟨p, hp, hmatch⟩, hfst⟩
    rcases hout : colOutcome cfg p with e | l | _ <;> rw [hout] at hmatch <;>
      simp at hmatch
    subst hmatch
    exact ⟨p, hp, by simpa using hfst, ⟨l, hout⟩⟩
  · rintro ⟨p, hp, hname, l, hout⟩
    exact ⟨(p.1, l), ⟨p, hp, by rw [hout]⟩, hname⟩

lemma mem_unmapped_iff (cfg : MapperCfg) (cols : List (String × Option ColVals))
    (name : String) :
    name ∈ (map_columns cfg cols).unmapped ↔
      ∃ p ∈ cols, p.1 = name ∧ colOutcome cfg p = ColOutcome.leftUnmapped := by
  rw [map_columns_eq]
  simp only [unmappedBucket, List.mem_filterMap]
  constructor
  · rintro ⟨p, hp, hmatch⟩
    rcases hout : colOutcome cfg p with e | l | _ <;> rw [hout] at hmatch <;>
      simp at hmatch
    exact ⟨p, hp, hmatch, hout⟩
  · rintro ⟨p, hp, hname, hout⟩
    exact ⟨p, hp, by rw [hout]; simpa using hname⟩

/-! ## Claim theorems -/

/-- **C1.** Partition invariant of the mapper: for every input dataframe or
column list with distinct column names and every mapper configuration, after
`map_columns` returns, each input column appears in exactly one of the
result's `mapping` keys, `ambiguous` keys, or `unmapped` list. -/
theorem c1_partition_invariant (cfg : MapperCfg) (cols : List (String × Option ColVals))
    (hnodup : (cols.map (fun p => p.1)).Nodup) :
    ∀ name ∈ cols.map (fun p => p.1),
      (name ∈ (map_columns cfg cols).mapping.map (fun e => e.1)
        ∧ name ∉ (map_columns cfg cols).ambiguous.map (fun e => e.1)
        ∧ name ∉ (map_columns cfg cols).unmapped)
      ∨ (name ∉ (map_columns cfg cols).mapping.map (fun e => e.1)
        ∧ name ∈ (map_columns cfg cols).ambiguous.map (fun e => e.1)
        ∧ name ∉ (map_columns cfg cols).unmapped)
      ∨ (name ∉ (map_columns cfg cols).mapping.map (fun e => e.1)
        ∧ name ∉ (map_columns cfg cols).ambiguous.map (fun e => e.1)
        ∧ name ∈ (map_columns cfg cols).unmapped) := by
  intro name hname
  obtain ⟨p, hp, hpname⟩ := List.mem_map.1 hname
  have huniq : ∀ q ∈ cols, q.1 = name → q = p := by
    intro q hq hqname
    exact List.inj_on_of_nodup_map hnodup hq hp (hqname.trans hpname.symm)
  have hnotM : (∀ e, colOutcome cfg p ≠ ColOutcome.mappedTo e) →
      name ∉ (map_columns cfg cols).mapping.map (fun e => e.1) := by
    intro hne h
    obtain ⟨q, hq, hqname, e, hqe⟩ := (mem_mapping_keys_iff cfg cols name).1 h
    rw [huniq q hq hqname] at hqe
    exact hne e hqe
  have hnotA : (∀ l, colOutcome cfg p ≠ ColOutcome.flaggedAmbiguous l) →
      name ∉ (map_columns cfg cols).ambiguous.map (fun e => e.1) := by
    intro hne h
    obtain ⟨q, hq, hqname, l, hql⟩ := (mem_ambiguous_keys_iff cfg cols name).1 h
    rw [huniq q hq hqname] at hql
    exact hne l hql
  have hnotU : colOutcome cfg p ≠ ColOutcome.leftUnmapped →
      name ∉ (map_columns cfg cols).unmapped := by
    intro hne h
    obtain ⟨q, hq, hqname, hql⟩ := (mem_unmapped_iff cfg cols name).1 h
    rw [huniq q hq hqname] at hql
    exact hne hql
  rcases hout : colOutcome cfg p with e | l | _
  · exact Or.inl ⟨(mem_mapping_keys_iff cfg cols name).2 ⟨p, hp, hpname, e, hout⟩,
      hnotA (by simp [hout]), hnotU (by simp [hout])⟩
  · exact Or.inr (Or.inl ⟨hnotM (by simp [hout]),
      (mem_ambiguous_keys_iff cfg cols name).2 ⟨p, hp, hpname, l, hout⟩,
      hnotU (by simp [hout])⟩)
  · exact Or.inr (Or.inr ⟨hnotM (by simp [hout]), hnotA (by simp [hout]),
      (mem_unmapped_iff cfg cols name).2 ⟨p, hp, hpname, hout⟩⟩)

/-- Witness for C1 at a concrete configuration and column list. -/
theorem c1_partition_invariant_witness :
    (([("Email", (none : Option ColVals)), ("zzz", none)].map
        (fun p => p.1)).Nodup)
    ∧ ("Email" ∈ [("Email", (none : Option ColVals)), ("zzz", none)].map (fun p => p.1))
    ∧ (("Email" ∈ (map_columns (defaultCfg ["email"])
          [("Email", none), ("zzz", none)]).mapping.map (fun e => e.1)
        ∧ "Email" ∉ (map_columns (defaultCfg ["email"])
            [("Email", none), ("zzz", none)]).ambiguous.map (fun e => e.1)
        ∧ "Email" ∉ (map_columns (defaultCfg ["email"])
            [("Email", none), ("zzz", none)]).unmapped)
      ∨ ("Email" ∉ (map_columns (defaultCfg ["email"])
            [("Email", none), ("zzz", none)]).mapping.map (fun e => e.1)
        ∧ "Email" ∈ (map_columns (defaultCfg ["email"])
            [("Email", none), ("zzz", none)]).ambiguous.map (fun e => e.1)
        ∧ "Email" ∉ (map_columns (defaultCfg ["email"])
            [("Email", none), ("zzz", none)]).unmapped)
      ∨ ("Email" ∉ (map_columns (defaultCfg ["email"])
            [("Email", none), ("zzz", none)]).mapping.map (fun e => e.1)
        ∧ "Email" ∉ (map_columns (defaultCfg ["email"])
            [("Email", none), ("zzz", none)]).ambiguous.map (fun e => e.1)
        ∧ "Email" ∈ (map_columns (defaultCfg ["email"])
            [("Email", none), ("zzz", none)]).unmapped)) :=
  ⟨by decide, by decide,
    c1_partition_invariant (defaultCfg ["email"]) [("Email", none), ("zzz", none)]
      (by decide) "Email" (by decide)⟩

/-- The two-candidate case of the per-column state machine: given acceptance
and `force=False`, the column is flagged ambiguous iff the score gap is
within `epsilon` and the two top reference names differ after `lower()`. -/
lemma classify_flagged_iff (cfg : MapperCfg) (best second : Candidate)
    (rest : List Candidate) (hforce : cfg.force = false)
    (hacc : cfg.threshold ≤ best.score) :
    (∃ l, classifyColumn cfg (best :: second :: rest) = ColOutcome.flaggedAmbiguous l) ↔
      (best.score - second.score ≤ cfg.epsilon ∧ lowerStr best.ref ≠ lowerStr second.ref) := by
  by_cases hgap : best.score - second.score ≤ cfg.epsilon <;>
    by_cases hlow : lowerStr best.ref = lowerStr second.ref <;>
      simp [classifyColumn, hforce, hacc, hgap, hlow]

/-- Companion to `classify_flagged_iff`: when the ambiguity condition fails,
the accepted column is mapped to the top candidate. -/
lemma classify_mapped_of_not (cfg : MapperCfg) (best second : Candidate)
    (rest : List Candidate) (hforce : cfg.force = false)
    (hacc : cfg.threshold ≤ best.score)
    (hnot : ¬ (best.score - second.score ≤ cfg.epsilon
        ∧ lowerStr best.ref ≠ lowerStr second.ref)) :
    classifyColumn cfg (best :: second :: rest)
      = ColOutcome.mappedTo ⟨best.ref, best.score, best.details⟩ := by
  by_cases hgap : best.score - second.score ≤ cfg.epsilon <;>
    by_cases hlow : lowerStr best.ref = lowerStr second.ref <;>
      · simp [classifyColumn, hforce, hacc, hgap, hlow]
        try exact absurd ⟨hgap, hlow⟩ hnot

/-- **C7.** Score aggregation range and formula: for all input signal values
and boosts of any magnitude, `aggregate_score` returns
`max(exact, norm_exact, synonym, jaccard, seq) + dtype_boost + pattern_boost
+ length_penalty` clamped to `[0, 1]`, so the result always lies in `[0, 1]`. -/
theorem c7_aggregate_score_range (c : SignalComps) (dtypeBoost patternBoost : ℚ) :
    (aggregate_score c dtypeBoost patternBoost).1
        = max 0 (min 1 (max c.exact (max c.normExact (max c.syn (max c.jac c.seq)))
            + dtypeBoost + patternBoost + c.lengthPenalty))
    ∧ 0 ≤ (aggregate_score c dtypeBoost patternBoost).1
    ∧ (aggregate_score c dtypeBoost patternBoost).1 ≤ 1 := by
  refine ⟨rfl, le_max_left _ _, ?_⟩
  exact max_le (by norm_num) (min_le_left _ _)

/-! ### Helper lemmas for the semantic-pattern detector -/

lemma stepCounts_eq (l : List ((String × Matcher) × Nat)) (v : String) :
    stepCounts l v = l.map (fun pc =>
      (pc.1, pc.2 + (if !(pyStrip v.data).isEmpty && pc.1.2 (pyStrip v.data)
        then 1 else 0))) := by
  unfold stepCounts
  by_cases h : (pyStrip v.data).isEmpty
  · simp [h]
  · simp only [h, if_neg, Bool.not_false]
    rw [if_neg (by simp [h])]
    apply List.map_congr_left
    intro pc _
    by_cases hm : pc.1.2 (pyStrip v.data) <;> simp [hm, h]

lemma foldl_stepCounts (values : List String) :
    ∀ (l : List ((String × Matcher) × Nat)),
      values.foldl stepCounts l = l.map (fun pc =>
        (pc.1, pc.2 + values.countP (fun v =>
          !(pyStrip v.data).isEmpty && pc.1.2 (pyStrip v.data)))) := by
  induction values with
  | nil => intro l; simp
  | cons v vs ih =>
    intro l
    rw [List.foldl_cons, stepCounts_eq, ih, List.map_map]
    apply List.map_congr_left
    intro pc _
    simp only [Function.comp_apply, List.countP_cons, Prod.mk.injEq, true_and]
    omega

lemma find?_congrP {α : Type} (l : List α) (p q : α → Bool)
    (h : ∀ x ∈ l, p x = q x) : l.find? p = l.find? q := by
  induction l with
  | nil => rfl
  | cons x xs ih =>
    rw [List.find?_cons, List.find?_cons, h x (by simp)]
    split
    · rfl
    · exact ih (fun y hy => h y (by simp [hy]))

/-- `_match_type` picks the *first* pattern (in library order) whose match
count is a strict majority of all sampled values: the counter dict is the
pattern-wise match count, and the final loop is a `find?` in insertion
order; `count/total > 0.5` over `ℚ` is `total < 2*count` since `total > 0`. -/
lemma matchType_eq_find (values : List String) (hne : values ≠ []) :
    matchType values = (patternList.find? (fun p =>
      decide (values.length < 2 * values.countP (fun v =>
        !(pyStrip v.data).isEmpty && p.2 (pyStrip v.data))))).map (fun p => p.1) := by
  have hlen : 0 < values.length := List.length_pos.2 hne
  simp only [matchType]
  rw [if_neg (by simpa using hne)]
  simp only [foldl_stepCounts, List.map_map, List.find?_map, Option.map_map]
  rw [find?_congrP patternList _ (fun p =>
    decide (values.length < 2 * values.countP (fun v =>
      !(pyStrip v.data).isEmpty && p.2 (pyStrip v.data))))]
  · rfl
  · intro p _
    simp only [Function.comp_apply, Nat.zero_add, decide_eq_decide]
    rw [div_lt_div_iff₀ (by norm_num) (by exact_mod_cast hlen), one_mul, mul_comm]
    exact_mod_cast Iff.rfl

/-- **C3 (amended).** Semantic pattern detection: for every text column with
at least one sampled non-null value, `detect` assigns the *first* label in
the fixed pattern-library order (Email, URL, UUID, Date, DateTime, Price,
Phone, IP Address, Credit Card) whose match count over the sampled values is
a strict majority (`count/total > 0.5`, with the total including sampled
empty strings, which never match); if no pattern reaches a strict majority
the column is left unlabeled. -/
theorem c3_first_pattern_above_half (vals : List (Option String)) (sampleSize : Nat)
    (hne : (vals.filterMap id).take sampleSize ≠ []) :
    detectCol (.utf8 vals) sampleSize
      = (patternList.find? (fun p =>
          decide (((vals.filterMap id).take sampleSize).length
            < 2 * ((vals.filterMap id).take sampleSize).countP (fun v =>
                !(pyStrip v.data).isEmpty && p.2 (pyStrip v.data))))).map
          (fun p => p.1) := by
  simp only [detectCol]
  rw [if_neg (by simpa using hne)]
  exact matchType_eq_find _ hne

/-- Witness for C3: a sample of three email-shaped values (no other pattern
matches them) is labeled `Email`, the first majority pattern. -/
theorem c3_first_pattern_above_half_witness :
    ((([some "a@b.co", none, some "c@d.org"] : List (Option String)).filterMap id).take 200 ≠ [])
    ∧ detectCol (.utf8 [some "a@b.co", none, some "c@d.org"]) 200 = some "Email" := by
  refine ⟨by decide, ?_⟩
  rw [c3_first_pattern_above_half [some "a@b.co", none, some "c@d.org"] 200 (by decide)]
  with_unfolding_all decide

/-- **C3 (counterexample).** The detector does *not* pick the label with the
highest match ratio, and library order *does* decide: on three plain-digit
strings and two `+`-prefixed phone numbers, `Price` matches 3/5 (a majority)
while `Phone` matches 5/5 (the highest ratio), yet `Price` is returned
because it precedes `Phone` in the pattern library. -/
theorem c3_first_match_counterexample :
    matchType ["1234567890", "1234567890", "1234567890",
        "+1 123 456 7890", "+1 123 456 7890"] = some "Price"
    ∧ (["1234567890", "1234567890", "1234567890",
        "+1 123 456 7890", "+1 123 456 7890"] : List String).countP
        (fun v => priceMatch (pyStrip v.data)) = 3
    ∧ (["1234567890", "1234567890", "1234567890",
        "+1 123 456 7890", "+1 123 456 7890"] : List String).countP
        (fun v => phoneMatch (pyStrip v.data)) = 5
    ∧ detectCol (.utf8 (["1234567890", "1234567890", "1234567890",
        "+1 123 456 7890", "+1 123 456 7890"].map some)) 200 = some "Price" := by
  with_unfolding_all decide

/-- **C4.** The claimed Boolean acceptance set is
`{true,false,0,1,yes,no,t,f,y,n}`, but the guard of the Boolean branch of
`refine_col_type` only admits `{true,false,0,1,yes,no}`: a text column whose
valid values are exactly `{"t","f"}` satisfies the claimed condition (at most
2 distinct values, all in the claimed set), its values all appear in the
function's own `bool_map`, and yet the column is left as text. -/
theorem c4_tf_column_left_as_text :
    refine_col_type [some "t", some "f"] = RefinedCol.text [some "t", some "f"]
    ∧ (∀ v ∈ ["t", "f"],
        lowerStr v ∈ ["true", "false", "0", "1", "yes", "no", "t", "f", "y", "n"])
    ∧ ["t", "f"].dedup.length ≤ 2
    ∧ (∀ v ∈ ["t", "f"], (boolMapLookup (lowerStr v)).isSome) := by
  with_unfolding_all decide

set_option maxRecDepth 8000 in
/-- **C2 (counterexample).** The claim's tie-break exception compares the top
two reference-field names after *normalization*; the code compares them after
`lower()`.  With reference fields `["user name", "user_name"]` — equal after
normalization but different after lower-casing — and a column `user_name`,
both candidates score `1.0`, so by the claim the column would be silently
mapped to the top candidate; the code flags it ambiguous instead. -/
theorem c2_normalization_tiebreak_counterexample :
    normalize_name "user name" = normalize_name "user_name"
    ∧ (map_columns (defaultCfg ["user name", "user_name"]) [("user_name", none)]).ambiguous
        = [("user_name", [("user name", 1), ("user_name", 1)])]
    ∧ (map_columns (defaultCfg ["user name", "user_name"]) [("user_name", none)]).mapping
        = [] := by
  with_unfolding_all decide

set_option maxRecDepth 40000 in
/-- **C2 (amended).** Ambiguity tie-break: for every column whose top
candidate score meets the threshold (with the default `force=False`), the
mapper flags it ambiguous iff `(top.score − second.score) ≤ epsilon`, except
when the top two candidates' reference-field names are equal
**case-insensitively** (`lower()`, not the normalizer), in which case the
column is silently mapped to the top candidate; in particular, with
`reference_fields=["EMAIL","email"]` and a column named `Email` containing
email-shaped values, the mapper maps the column to target `email` rather
than flagging ambiguity. -/
theorem c2_lowercase_tiebreak :
    (∀ (cfg : MapperCfg) (cols : List (String × Option ColVals))
        (p : String × Option ColVals) (best second : Candidate) (rest : List Candidate),
      cfg.force = false →
      (cols.map (fun q => q.1)).Nodup →
      p ∈ cols →
      scoresForColumn cfg p.1 p.2 = best :: second :: rest →
      cfg.threshold ≤ best.score →
      (p.1 ∈ (map_columns cfg cols).ambiguous.map (fun e => e.1) ↔
        (best.score - second.score ≤ cfg.epsilon
          ∧ lowerStr best.ref ≠ lowerStr second.ref))
      ∧ (¬ (best.score - second.score ≤ cfg.epsilon
            ∧ lowerStr best.ref ≠ lowerStr second.ref) →
          (p.1, (⟨best.ref, best.score, best.details⟩ : MappedEntry))
            ∈ (map_columns cfg cols).mapping))
    ∧ (map_columns (defaultCfg ["EMAIL", "email"])
        [("Email", some (.utf8 [some "alice@example.com", some "bob@mail.org",
            some "carol@test.de"]))]).mapping.map (fun e => (e.1, e.2.target))
        = [("Email", "email")]
    ∧ (map_columns (defaultCfg ["EMAIL", "email"])
        [("Email", some (.utf8 [some "alice@example.com", some "bob@mail.org",
            some "carol@test.de"]))]).ambiguous = [] := by
  refine ⟨?_, ?_, ?_⟩
  · intro cfg cols p best second rest hforce hnodup hp hcands hacc
    constructor
    · rw [mem_ambiguous_keys_iff]
      constructor
      · rintro ⟨q, hq, hqname, l, hql⟩
        have hqp : q = p := List.inj_on_of_nodup_map hnodup hq hp hqname
        subst hqp
        have hex : ∃ l2, classifyColumn cfg (best :: second :: rest)
            = ColOutcome.flaggedAmbiguous l2 := by
          rw [← hcands]
          exact ⟨l, hql⟩
        exact (classify_flagged_iff cfg best second rest hforce hacc).1 hex
      · intro hcond
        obtain ⟨l, hl⟩ := (classify_flagged_iff cfg best second rest hforce hacc).2 hcond
        refine ⟨p, hp, rfl, l, ?_⟩
        rw [colOutcome, hcands]
        exact hl
    · intro hnot
      have hout : colOutcome cfg p
          = ColOutcome.mappedTo ⟨best.ref, best.score, best.details⟩ := by
        rw [colOutcome, hcands]
        exact classify_mapped_of_not cfg best second rest hforce hacc hnot
      rw [map_columns_eq]
      simp only [mappedBucket, List.mem_filterMap]
      exact ⟨p, hp, by rw [hout]⟩
  · with_unfolding_all decide
  · with_unfolding_all decide

set_option maxRecDepth 40000 in
/-- Witness for C2 at the `["user name", "user_name"]` configuration: the
hypotheses of the general part hold with the two concrete candidates (both
scoring `1.0`), and the column lands in `ambiguous` because the top two
reference names differ after `lower()`. -/
theorem c2_lowercase_tiebreak_witness :
    (defaultCfg ["user name", "user_name"]).force = false
    ∧ ([("user_name", (none : Option ColVals))].map (fun q => q.1)).Nodup
    ∧ ("user_name", (none : Option ColVals)) ∈ [("user_name", (none : Option ColVals))]
    ∧ scoresForColumn (defaultCfg ["user name", "user_name"]) "user_name" none
        = [⟨"user name", 1, ⟨⟨0, 98 / 100, 0, 1, 1, 0⟩, 0, 0, 1, 1⟩⟩,
           ⟨"user_name", 1, ⟨⟨1, 98 / 100, 0, 1, 1, 0⟩, 0, 0, 1, 1⟩⟩]
    ∧ (defaultCfg ["user name", "user_name"]).threshold ≤ (1 : ℚ)
    ∧ ("user_name" ∈ (map_columns (defaultCfg ["user name", "user_name"])
          [("user_name", none)]).ambiguous.map (fun e => e.1) ↔
        ((1 : ℚ) - 1 ≤ (defaultCfg ["user name", "user_name"]).epsilon
          ∧ lowerStr "user name" ≠ lowerStr "user_name")) := by
  refine ⟨rfl, by decide, by decide, by with_unfolding_all decide,
    by with_unfolding_all decide, ?_⟩
  exact (c2_lowercase_tiebreak.1 (defaultCfg ["user name", "user_name"])
    [("user_name", none)] ("user_name", none)
    ⟨"user name", 1, ⟨⟨0, 98 / 100, 0, 1, 1, 0⟩, 0, 0, 1, 1⟩⟩
    ⟨"user_name", 1, ⟨⟨1, 98 / 100, 0, 1, 1, 0⟩, 0, 0, 1, 1⟩⟩ []
    rfl (by decide) (by decide) (by with_unfolding_all decide)
    (by with_unfolding_all decide)).1

/-! ### Helper lemmas for the z-score detector -/

lemma nanvariance_nonneg (l : List ℚ) : 0 ≤ nanvariance l := by
  unfold nanvariance
  apply div_nonneg
  · apply List.sum_nonneg
    intro x hx
    obtain ⟨v, _, rfl⟩ := List.mem_map.1 hx
    positivity
  · positivity

/-- `|x| / √q > t` unfolds to the rational-decidable condition used by the
embedded filter: always true for negative thresholds, and equivalent to
`t² q < x²` otherwise. -/
lemma abs_div_sqrt_lt_iff (x q t : ℝ) (hq : 0 < q) :
    (t < |x| / Real.sqrt q) ↔ (t < 0 ∨ t ^ 2 * q < x ^ 2) := by
  have hs : 0 < Real.sqrt q := Real.sqrt_pos.mpr hq
  rw [lt_div_iff₀ hs]
  constructor
  · intro h
    rcases lt_or_le t 0 with ht | ht
    · exact Or.inl ht
    · right
      nlinarith [mul_self_lt_mul_self (mul_nonneg ht hs.le) h,
        Real.sq_sqrt hq.le, sq_abs x]
  · rintro (ht | h2)
    · exact lt_of_lt_of_le (mul_neg_of_neg_of_pos ht hs) (abs_nonneg x)
    · rcases lt_or_le t 0 with ht | ht
      · exact lt_of_lt_of_le (mul_neg_of_neg_of_pos ht hs) (abs_nonneg x)
      · by_contra hle
        push_neg at hle
        nlinarith [mul_self_le_mul_self (abs_nonneg x) hle,
          Real.sq_sqrt hq.le, sq_abs x]

/-- **C5.** Z-score detector: on a single numeric column it flags exactly the
rows with `|value − mean| / stddev > threshold` (mean and standard deviation
computed ignoring missing values; missing rows never flagged), and whenever
the standard deviation is zero or undefined (zero variance or all values
missing) it returns an empty result. -/
theorem c5_zscore_detector {α : Type} (rows : List (α × Option ℚ)) (t : ℚ) :
    ((rows.filterMap (fun r => r.2) = []
        ∨ nanvariance (rows.filterMap (fun r => r.2)) = 0) →
      z_score_anomalies rows t = [])
    ∧ (rows.filterMap (fun r => r.2) ≠ [] →
        nanvariance (rows.filterMap (fun r => r.2)) ≠ 0 →
        ∀ r : α × Option ℚ,
          (r ∈ z_score_anomalies rows t ↔
            r ∈ rows ∧ ∃ v : ℚ, r.2 = some v
              ∧ ((t : ℝ) <
                  |(v : ℝ) - ((nanmean (rows.filterMap (fun r => r.2)) : ℚ) : ℝ)|
                    / Real.sqrt ((nanvariance (rows.filterMap (fun r => r.2)) : ℚ) : ℝ)))) := by
  constructor
  · intro h
    unfold z_score_anomalies
    rcases h with h | h
    · simp [h]
    · by_cases hp : rows.filterMap (fun r => r.2) = []
      · simp [hp]
      · simp [hp, h]
  · intro hp hv r
    have hq0 : (0 : ℝ) < ((nanvariance (rows.filterMap (fun r => r.2)) : ℚ) : ℝ) := by
      have h1 := nanvariance_nonneg (rows.filterMap (fun r => r.2))
      have h2 : 0 < nanvariance (rows.filterMap (fun r => r.2)) :=
        lt_of_le_of_ne h1 (Ne.symm hv)
      exact_mod_cast h2
    unfold z_score_anomalies
    rw [if_neg (by simpa using hp), if_neg hv, List.mem_filter]
    apply and_congr_right
    intro _
    rcases hr2 : r.2 with _ | v
    · simp
    · simp only [Option.some.injEq, decide_eq_true_eq]
      rw [exists_eq_left']
      rw [abs_div_sqrt_lt_iff ((v : ℝ)
        - ((nanmean (rows.filterMap (fun r => r.2)) : ℚ) : ℝ)) _ _ hq0]
      constructor
      · rintro (h | h)
        · exact Or.inl (by exact_mod_cast h)
        · refine Or.inr ?_
          exact_mod_cast h
      · rintro (h | h)
        · exact Or.inl (by exact_mod_cast h)
        · refine Or.inr ?_
          exact_mod_cast h

/-- Witness for C5 at the spec's example column
`[10.5, 12.0, 11.5, 100.0, 10.9]` with `threshold = 1.5`: the hypotheses
hold, the characterization applies to the row holding `100.0`, and the
detector flags exactly that row. -/
theorem c5_zscore_detector_witness :
    ([((0 : Nat), some ((21 : ℚ) / 2)), (1, some 12), (2, some ((23 : ℚ) / 2)),
        (3, some 100), (4, some ((109 : ℚ) / 10))].filterMap (fun r => r.2) ≠ [])
    ∧ nanvariance ([((0 : Nat), some ((21 : ℚ) / 2)), (1, some 12), (2, some ((23 : ℚ) / 2)),
        (3, some 100), (4, some ((109 : ℚ) / 10))].filterMap (fun r => r.2)) ≠ 0
    ∧ (((3 : Nat), some (100 : ℚ)) ∈ z_score_anomalies
          [((0 : Nat), some ((21 : ℚ) / 2)), (1, some 12), (2, some ((23 : ℚ) / 2)),
            (3, some 100), (4, some ((109 : ℚ) / 10))] (3 / 2) ↔
        ((3 : Nat), some (100 : ℚ)) ∈ [((0 : Nat), some ((21 : ℚ) / 2)), (1, some 12),
            (2, some ((23 : ℚ) / 2)), (3, some 100), (4, some ((109 : ℚ) / 10))]
          ∧ ∃ v : ℚ, ((3 : Nat), some (100 : ℚ)).2 = some v
            ∧ (((3 : ℚ) / 2 : ℚ) : ℝ) <
                |(v : ℝ) - ((nanmean ([((0 : Nat), some ((21 : ℚ) / 2)), (1, some 12),
                    (2, some ((23 : ℚ) / 2)), (3, some 100),
                    (4, some ((109 : ℚ) / 10))].filterMap (fun r => r.2)) : ℚ) : ℝ)|
                  / Real.sqrt ((nanvariance ([((0 : Nat), some ((21 : ℚ) / 2)), (1, some 12),
                    (2, some ((23 : ℚ) / 2)), (3, some 100),
                    (4, some ((109 : ℚ) / 10))].filterMap (fun r => r.2)) : ℚ) : ℝ))
    ∧ z_score_anomalies [((0 : Nat), some ((21 : ℚ) / 2)), (1, some 12),
        (2, some ((23 : ℚ) / 2)), (3, some 100), (4, some ((109 : ℚ) / 10))] (3 / 2)
        = [((3 : Nat), some (100 : ℚ))] := by
  refine ⟨by with_unfolding_all decide, by with_unfolding_all decide, ?_, ?_⟩
  · exact (c5_zscore_detector [((0 : Nat), some ((21 : ℚ) / 2)), (1, some 12),
      (2, some ((23 : ℚ) / 2)), (3, some 100), (4, some ((109 : ℚ) / 10))] (3 / 2)).2
      (by with_unfolding_all decide) (by with_unfolding_all decide)
      ((3 : Nat), some (100 : ℚ))
  · with_unfolding_all decide

/-- **C9.** Mapper determinism: two runs of `map_columns` with identical
configuration (reference fields, synonyms, threshold, epsilon) on an
unchanged table produce the same mapping, ambiguous lists and unmapped list.
The embedding is a pure function; the Python ingredients that make this true
(stable `list.sort`, insertion-ordered dicts, no randomness) are mirrored by
the stable `mergeSort` and ordered association lists. -/
theorem c9_mapper_deterministic (cfg1 cfg2 : MapperCfg)
    (cols1 cols2 : List (String × Option ColVals))
    (hcfg : cfg1 = cfg2) (hcols : cols1 = cols2) :
    (map_columns cfg1 cols1).mapping = (map_columns cfg2 cols2).mapping
    ∧ (map_columns cfg1 cols1).ambiguous = (map_columns cfg2 cols2).ambiguous
    ∧ (map_columns cfg1 cols1).unmapped = (map_columns cfg2 cols2).unmapped := by
  subst hcfg; subst hcols; exact ⟨rfl, rfl, rfl⟩

/-- Witness for C9 at a concrete configuration and table. -/
theorem c9_mapper_deterministic_witness :
    (map_columns (defaultCfg ["email"]) [("Email", none)]).mapping
      = (map_columns (defaultCfg ["email"]) [("Email", none)]).mapping
    ∧ (map_columns (defaultCfg ["email"]) [("Email", none)]).ambiguous
      = (map_columns (defaultCfg ["email"]) [("Email", none)]).ambiguous
    ∧ (map_columns (defaultCfg ["email"]) [("Email", none)]).unmapped
      = (map_columns (defaultCfg ["email"]) [("Email", none)]).unmapped :=
  c9_mapper_deterministic _ _ _ _ rfl rfl

/-! ### Helper lemmas for the missing-value detector -/

lemma zip_self_map {α β : Type} (l : List α) (g : α → β) :
    l.zip (l.map g) = l.map (fun x => (x, g x)) := by
  induction l with
  | nil => rfl
  | cons x xs ih => simp [ih]

lemma eraseIdx_concat {α : Type} (l : List α) (x : α) :
    (l ++ [x]).eraseIdx l.length = l := by
  induction l with
  | nil => rfl
  | cons y ys ih => simp [List.eraseIdx, ih]

/-- Without a pre-existing `_missing_count` column, `with_columns` appends
the computed counter as a last column. -/
lemma withMissingCount_no_collision (df : PFrame)
    (hnc : ∀ c ∈ df.cols, c.1 ≠ "_missing_count") :
    withMissingCount df =
      { cols := df.cols ++ [("_missing_count", false)],
        rows := df.rows.map
          (fun r => r ++ [.num (rowMissingCount df.cols r : ℚ)]) } := by
  have hany : df.cols.any (fun c => decide (c.1 = "_missing_count")) = false := by
    rw [List.any_eq_false]
    intro c hc
    simpa using hnc c hc
  simp only [withMissingCount, hany]
  rw [if_neg (by simp)]
  rw [zip_self_map, List.map_map]
  rfl

lemma findIdx_concat_self (cols : List (String × Bool))
    (hnc : ∀ c ∈ cols, c.1 ≠ "_missing_count") :
    (cols ++ [("_missing_count", false)]).findIdx
      (fun c => c.1 = "_missing_count") = cols.length := by
  induction cols with
  | nil => simp [List.findIdx_cons]
  | cons c cs ih =>
    rw [List.cons_append, List.findIdx_cons]
    have hc : (decide (c.1 = "_missing_count")) = false := by
      simpa using hnc c (by simp)
    rw [hc]
    simp only [cond_false, List.length_cons]
    rw [ih (fun d hd => hnc d (by simp [hd]))]

/-- The whole pipeline in the no-collision case: the detector keeps the
column set and filters the rows by their missing count. -/
lemma detect_missing_eq (df : PFrame) (threshold : Int)
    (hnc : ∀ c ∈ df.cols, c.1 ≠ "_missing_count")
    (hwf : ∀ r ∈ df.rows, r.length = df.cols.length) :
    detect_missing_value_anomalies df threshold =
      { cols := df.cols,
        rows := df.rows.filter
          (fun r => decide ((threshold : ℚ) ≤ (rowMissingCount df.cols r : ℚ))) } := by
  by_cases hrows : df.rows = []
  · simp [detect_missing_value_anomalies, hrows]
  · unfold detect_missing_value_anomalies
    rw [if_neg (by simpa using hrows)]
    rw [withMissingCount_no_collision df hnc]
    simp only [filterByMissingCount]
    rw [findIdx_concat_self df.cols hnc]
    rw [List.filter_map]
    have hfc : ∀ r ∈ df.rows,
        ((fun rr : List PCell => (match rr[df.cols.length]? with
            | some (.num q) => decide ((threshold : ℚ) ≤ q)
            | _ => false)) ∘
          (fun r => r ++ [PCell.num (rowMissingCount df.cols r : ℚ)])) r
        = decide ((threshold : ℚ) ≤ (rowMissingCount df.cols r : ℚ)) := by
      intro r hr
      have hlen : r.length = df.cols.length := hwf r hr
      simp only [Function.comp_apply]
      rw [← hlen, List.getElem?_concat_length]
    rw [List.filter_congr hfc]
    unfold dropColumn
    simp only
    rw [findIdx_concat_self df.cols hnc, eraseIdx_concat, List.map_map]
    congr 1
    conv_rhs => rw [← List.map_id (List.filter _ df.rows)]
    apply List.map_congr_left
    intro r hr
    have hlen : r.length = df.cols.length :=
      hwf r (List.mem_of_mem_filter hr)
    simp only [Function.comp_apply, id_eq]
    rw [← hlen, eraseIdx_concat]

/-- In the collision case the overwrite-then-drop pipeline erases exactly the
pre-existing `_missing_count` column, and the result carries no column of
that name. -/
lemma collision_cols_shape :
    ∀ (cols : List (String × Bool)),
      (cols.map (fun c => c.1)).Nodup →
      "_missing_count" ∈ cols.map (fun c => c.1) →
      ((cols.map (fun c =>
            if c.1 = "_missing_count" then ("_missing_count", false) else c)).eraseIdx
          ((cols.map (fun c =>
            if c.1 = "_missing_count" then ("_missing_count", false) else c)).findIdx
            (fun c => c.1 = "_missing_count"))
        = cols.eraseIdx (cols.findIdx (fun c => c.1 = "_missing_count")))
      ∧ "_missing_count" ∉
          (cols.eraseIdx (cols.findIdx (fun c => c.1 = "_missing_count"))).map
            (fun c => c.1) := by
  intro cols
  induction cols with
  | nil => intro _ hmem; simp at hmem
  | cons c cs ih =>
    intro hnodup hmem
    rw [List.map_cons, List.nodup_cons] at hnodup
    by_cases hc : c.1 = "_missing_count"
    · have hnotcs : "_missing_count" ∉ cs.map (fun d => d.1) := by
        rw [← hc]
        exact hnodup.1
      have hmapid : cs.map (fun d =>
          if d.1 = "_missing_count" then ("_missing_count", false) else d) = cs := by
        conv_rhs => rw [← List.map_id cs]
        apply List.map_congr_left
        intro d hd
        have hne : d.1 ≠ "_missing_count" := fun h =>
          hnotcs (List.mem_map.2 ⟨d, hd, h⟩)
        simp [hne]
      have hdc : decide (((("_missing_count", false) : String × Bool)).1
          = "_missing_count") = true := by simp
      constructor
      · simp only [List.map_cons, if_pos hc, List.findIdx_cons, hdc, cond_true,
          List.eraseIdx_zero, List.tail_cons, hmapid]
        have hdc2 : decide (c.1 = "_missing_count") = true := by simp [hc]
        simp [List.findIdx_cons, hdc2]
      · have hdc2 : decide (c.1 = "_missing_count") = true := by simp [hc]
        simp only [List.findIdx_cons, hdc2, cond_true, List.eraseIdx_zero,
          List.tail_cons]
        exact hnotcs
    · have hmemcs : "_missing_count" ∈ cs.map (fun d => d.1) := by
        rcases List.mem_map.1 hmem with ⟨d, hd, hdname⟩
        rcases List.mem_cons.1 hd with rfl | hd2
        · exact absurd hdname hc
        · exact List.mem_map.2 ⟨d, hd2, hdname⟩
      have ihr := ih hnodup.2 hmemcs
      have hfc : (if c.1 = "_missing_count" then (("_missing_count", false) : String × Bool)
          else c) = c := if_neg hc
      have hd0 : decide (c.1 = "_missing_count") = false := by simp [hc]
      constructor
      · simp only [List.map_cons, hfc, List.findIdx_cons, hd0, cond_false,
          List.eraseIdx_cons_succ]
        rw [ihr.1]
      · simp only [List.findIdx_cons, hd0, cond_false, List.eraseIdx_cons_succ,
          List.map_cons]
        intro h
        rcases List.mem_cons.1 h with h1 | h2
        · exact hc h1.symm
        · exact ihr.2 h2

/-- **C6.** Missing-value detector: `detect_missing_value_anomalies` returns
exactly the rows whose count of missing values across all columns — null in
any column, or empty string in text-typed columns — is at least the
threshold. -/
theorem c6_missing_value_threshold (df : PFrame) (threshold : Int)
    (hnc : ∀ c ∈ df.cols, c.1 ≠ "_missing_count")
    (hwf : ∀ r ∈ df.rows, r.length = df.cols.length) :
    (detect_missing_value_anomalies df threshold).rows
      = df.rows.filter
          (fun r => decide (threshold ≤ (rowMissingCount df.cols r : Int))) := by
  rw [detect_missing_eq df threshold hnc hwf]
  apply List.filter_congr
  intro r _
  simp only [decide_eq_decide]
  constructor
  · intro h
    exact_mod_cast h
  · intro h
    exact_mod_cast h

/-- Witness for C6 at the spec's example: a 4-row table with missing values
in rows 2 (a null) and 3 (an empty string in a text column); `threshold=1`
returns exactly those two rows, and `threshold=5` (above the per-row
maximum) returns no rows. -/
theorem c6_missing_value_threshold_witness :
    (∀ c ∈ (PFrame.mk [("a", false), ("b", true)]
        [[.num 1, .str "x"], [.num 2, .str "y"], [.null, .str "z"],
         [.num 4, .str ""]]).cols, c.1 ≠ "_missing_count")
    ∧ (∀ r ∈ (PFrame.mk [("a", false), ("b", true)]
        [[.num 1, .str "x"], [.num 2, .str "y"], [.null, .str "z"],
         [.num 4, .str ""]]).rows, r.length = 2)
    ∧ (detect_missing_value_anomalies (PFrame.mk [("a", false), ("b", true)]
        [[.num 1, .str "x"], [.num 2, .str "y"], [.null, .str "z"],
         [.num 4, .str ""]]) 1).rows
        = [[.null, .str "z"], [.num 4, .str ""]]
    ∧ (detect_missing_value_anomalies (PFrame.mk [("a", false), ("b", true)]
        [[.num 1, .str "x"], [.num 2, .str "y"], [.null, .str "z"],
         [.num 4, .str ""]]) 5).rows = [] := by
  refine ⟨by decide, by decide, ?_, ?_⟩
  · rw [c6_missing_value_threshold _ 1 (by decide) (by decide)]
    with_unfolding_all decide
  · rw [c6_missing_value_threshold _ 5 (by decide) (by decide)]
    with_unfolding_all decide

/-- **C10 (counterexample).** The claim says an input column named
`_missing_count` is always dropped from the output, but on a zero-row frame
the code returns `df.head(0)` before ever touching the counter column, so
the column survives. -/
theorem c10_empty_frame_counterexample :
    (detect_missing_value_anomalies
        (PFrame.mk [("_missing_count", false)] []) 1).cols
      = [("_missing_count", false)] := by
  with_unfolding_all decide

/-- **C10 (amended).** Frame effect of the missing-value detector: for every
input dataframe without a `_missing_count` column, the output has exactly
the input's column set and every output row is a row of the input unchanged;
an input column literally named `_missing_count` is silently overwritten by
the internal counter and dropped from the output whenever the table has at
least one row (a zero-row table is returned with its schema intact). -/
theorem c10_missing_value_frame_effect :
    (∀ (df : PFrame) (threshold : Int),
      (∀ c ∈ df.cols, c.1 ≠ "_missing_count") →
      (∀ r ∈ df.rows, r.length = df.cols.length) →
      (detect_missing_value_anomalies df threshold).cols = df.cols
        ∧ ∀ r ∈ (detect_missing_value_anomalies df threshold).rows, r ∈ df.rows)
    ∧ (∀ (df : PFrame) (threshold : Int),
      (df.cols.map (fun c => c.1)).Nodup →
      "_missing_count" ∈ df.cols.map (fun c => c.1) →
      df.rows ≠ [] →
      (detect_missing_value_anomalies df threshold).cols
          = df.cols.eraseIdx (df.cols.findIdx (fun c => c.1 = "_missing_count"))
        ∧ "_missing_count" ∉
            (detect_missing_value_anomalies df threshold).cols.map (fun c => c.1)) := by
  constructor
  · intro df threshold hnc hwf
    rw [detect_missing_eq df threshold hnc hwf]
    exact ⟨rfl, fun r hr => List.mem_of_mem_filter hr⟩
  · intro df threshold hnodup hmem hrows
    have hshape := collision_cols_shape df.cols hnodup hmem
    have hany : (df.cols.any (fun c => decide (c.1 = "_missing_count"))) = true := by
      rw [List.any_eq_true]
      rcases List.mem_map.1 hmem with ⟨c, hc, hcname⟩
      exact ⟨c, hc, by simp [hcname]⟩
    have hcols : (detect_missing_value_anomalies df threshold).cols
        = (df.cols.map (fun c =>
            if c.1 = "_missing_count" then ("_missing_count", false) else c)).eraseIdx
          ((df.cols.map (fun c =>
            if c.1 = "_missing_count" then ("_missing_count", false) else c)).findIdx
            (fun c => c.1 = "_missing_count")) := by
      unfold detect_missing_value_anomalies
      rw [if_neg (by simpa using hrows)]
      unfold dropColumn filterByMissingCount withMissingCount
      rw [if_pos hany]
    rw [hcols, hshape.1]
    refine ⟨rfl, ?_⟩
    exact hshape.2

/-- Witness for C10 on a concrete collision-free frame and on a concrete
frame that carries a `_missing_count` column with one row. -/
theorem c10_missing_value_frame_effect_witness :
    ((detect_missing_value_anomalies (PFrame.mk [("a", false), ("b", true)]
          [[.num 1, .str ""]]) 1).cols = [("a", false), ("b", true)]
      ∧ ∀ r ∈ (detect_missing_value_anomalies (PFrame.mk [("a", false), ("b", true)]
          [[.num 1, .str ""]]) 1).rows,
          r ∈ [[PCell.num 1, PCell.str ""]])
    ∧ ((detect_missing_value_anomalies (PFrame.mk
            [("_missing_count", false), ("b", true)] [[.num 9, .null]]) 1).cols
          = [("b", true)]
        ∧ "_missing_count" ∉ (detect_missing_value_anomalies (PFrame.mk
            [("_missing_count", false), ("b", true)] [[.num 9, .null]]) 1).cols.map
            (fun c => c.1)) := by
  constructor
  · exact c10_missing_value_frame_effect.1
      (PFrame.mk [("a", false), ("b", true)] [[.num 1, .str ""]]) 1
      (by decide) (by decide)
  · have h := c10_missing_value_frame_effect.2
      (PFrame.mk [("_missing_count", false), ("b", true)] [[.num 9, .null]]) 1
      (by decide) (by decide) (by decide)
    refine ⟨?_, h.2⟩
    rw [h.1]
    decide

/-! ### Helper lemmas for the dynamic reference fields -/

lemma foldl_union_acc (xs : List (List String)) :
    ∀ acc : Finset String,
      xs.foldl (fun a cols => a ∪ cols.toFinset) acc
        = acc ∪ xs.foldl (fun a cols => a ∪ cols.toFinset) ∅ := by
  induction xs with
  | nil => intro acc; simp
  | cons x xs ih =>
    intro acc
    rw [List.foldl_cons, List.foldl_cons, ih (acc ∪ x.toFinset), ih (∅ ∪ x.toFinset)]
    simp [Finset.union_assoc]

lemma globalColumns_cons (x : List String) (xs : List (List String)) :
    globalColumns (x :: xs) = x.toFinset ∪ globalColumns xs := by
  show List.foldl _ ∅ (x :: xs) = _
  rw [List.foldl_cons, foldl_union_acc xs (∅ ∪ x.toFinset)]
  simp [globalColumns]

lemma globalColumns_eraseIdx :
    ∀ (datasets : List (List String)) (i : Fin datasets.length),
      globalColumns datasets
        = globalColumns (datasets.eraseIdx i) ∪ (datasets.get i).toFinset := by
  intro datasets
  induction datasets with
  | nil => intro i; exact absurd i.2 (by simp)
  | cons x xs ih =>
    intro i
    rcases i with ⟨iv, hi⟩
    cases iv with
    | zero =>
      simp only [globalColumns_cons, List.eraseIdx_zero, List.tail_cons, List.get]
      exact Finset.union_comm _ _
    | succ n =>
      simp only [globalColumns_cons, List.eraseIdx_cons_succ, List.get]
      rw [ih ⟨n, by simpa using hi⟩]
      exact (Finset.union_assoc _ _ _).symm

/-- **C8.** Dynamic reference fields: for every dataset processed by
`run_assistant`, the reference-field set passed to its per-dataset run equals
the user-supplied canonical fields unioned with the column names of every
*other* dataset minus the dataset's own column names, so no column of the
dataset is introduced as a reference target by the cross-table augmentation
(any own column among the references must come from the user-supplied
fields). -/
theorem c8_dynamic_reference_fields (userRefs : List String)
    (datasets : List (List String)) (i : Fin datasets.length) :
    dynamicRefs userRefs datasets i
      = userRefs.toFinset
          ∪ (globalColumns (datasets.eraseIdx i) \ (datasets.get i).toFinset)
    ∧ ∀ c ∈ (datasets.get i).toFinset,
        c ∈ dynamicRefs userRefs datasets i → c ∈ userRefs.toFinset := by
  have hgd : datasets.getD (i : Nat) [] = datasets.get i := by
    rw [List.getD_eq_getElem datasets [] i.2, List.get_eq_getElem]
  constructor
  · simp only [dynamicRefs]
    rw [hgd, globalColumns_eraseIdx datasets i, Finset.union_sdiff_right]
  · intro c hc hmem
    simp only [dynamicRefs] at hmem
    rw [hgd] at hmem
    rcases Finset.mem_union.1 hmem with h | h
    · exact h
    · exact absurd hc (Finset.mem_sdiff.1 h).2

/-- Witness for C8 with two concrete datasets sharing the column `b`: for
the second dataset the references are the user field plus `a` (the other
table's non-shared column), and its own column `b` enters only if
user-supplied — here it does not. -/
theorem c8_dynamic_reference_fields_witness :
    dynamicRefs ["email"] [["a", "b"], ["b", "c"]] ((1 : Fin 2) : Nat)
        = ["email"].toFinset
          ∪ (globalColumns ([["a", "b"], ["b", "c"]].eraseIdx (1 : Fin 2))
              \ ([["a", "b"], ["b", "c"]].get (1 : Fin 2)).toFinset)
    ∧ ∀ c ∈ ([["a", "b"], ["b", "c"]].get (1 : Fin 2)).toFinset,
        c ∈ dynamicRefs ["email"] [["a", "b"], ["b", "c"]] ((1 : Fin 2) : Nat) →
        c ∈ (["email"] : List String).toFinset :=
  c8_dynamic_reference_fields ["email"] [["a", "b"], ["b", "c"]] (1 : Fin 2)

end Lakehouse
